import Mathlib

/-!
Verification development for puffin's deflate-location utilities
(`src/utils.cc`).  We give a shallow embedding of the four core
operations and prove the announced properties about them:

* `FindPuffLocations`        — the puff-location mapper (utils.cc:268-336);
* `LocateDeflatesInZlibBlocks` — the zlib container scanner (utils.cc:92-142);
* `FindDeflateSubBlocks`     — the deflate sub-block locator (utils.cc:144-169);
* `LocateDeflatesInZipArchive` — the zip container scanner (utils.cc:181-255).

Streams are modelled by the byte list they contain (`List Nat`, each
entry a byte); per the stream contract (spec §4.1, the stream
implementation itself is outside the embedded sources) `Seek(o)`
succeeds iff `o ≤ size` and `Read(n)` succeeds iff `o + n ≤ size`.
The external deflate codec (`Puffer::PuffDeflate`) and the raw-inflate
probe (`CalculateSizeOfDeflateBlock`'s zlib calls) are external
collaborators (spec §6) and are passed in as oracle functions.
Machine integers are modelled as `Nat`/`Int`; the two places where
`uint64_t`/`size_t` wrap-around is reachable are modelled explicitly
with `% 2^64` (see `sub64`).
-/

namespace Puffin

/-- A contiguous byte range, `{offset, length}`, both `uint64_t` in the
source (`ByteExtent` in common.h). -/
structure ByteExtent where
  offset : Nat
  length : Nat
  deriving DecidableEq

/-- A contiguous bit range, `{offset, length}`, measured in bits
(`BitExtent` in common.h). -/
structure BitExtent where
  offset : Nat
  length : Nat
  deriving DecidableEq

/-- Unsigned 64-bit subtraction `a - b` with wrap-around, the behaviour
of `uint64_t`/`size_t` arithmetic in the source for operands below
`2^64`. -/
def sub64 (a b : Nat) : Nat :=
  (a + 2 ^ 64 - b) % 2 ^ 64

/-- One byte of the stream/buffer; bytes are `uint8_t`, hence `% 256`. -/
def readByte (data : List Nat) (i : Nat) : Nat :=
  data.getD i 0 % 256

/-- `get_unaligned<uint16_t>(data + i)` on a little-endian machine
(utils.cc:26-30). -/
def readLE16 (data : List Nat) (i : Nat) : Nat :=
  readByte data i + 256 * readByte data (i + 1)

/-- `get_unaligned<uint32_t>(data + i)` on a little-endian machine
(utils.cc:26-30). -/
def readLE32 (data : List Nat) (i : Nat) : Nat :=
  readByte data i + 256 * readByte data (i + 1) +
    65536 * readByte data (i + 2) + 16777216 * readByte data (i + 3)

/-- The RFC 1950 zlib header conditions checked at utils.cc:101-121:
`CM ∈ {8, 15}`, `CINFO ≤ 7`, and `CMF * 256 + FLG` divisible by 31.
With the LSB-first bit reader, `CM` is the low nibble and `CINFO` the
high nibble of the first header byte `b0`, and `FLG` is the second
byte `b1`. -/
def ZlibHeaderOk (b0 b1 : Nat) : Prop :=
  (b0 % 16 = 8 ∨ b0 % 16 = 15) ∧ b0 / 16 ≤ 7 ∧ (b0 * 256 + b1) % 31 = 0

instance (b0 b1 : Nat) : Decidable (ZlibHeaderOk b0 b1) := by
  unfold ZlibHeaderOk; infer_instance

/-- The per-extent body of `LocateDeflatesInZlibBlocks`
(utils.cc:96-138): seek to the extent, read the 2 header bytes,
validate them, and produce the deflate payload extent
`(offset + header_len, length - header_len - 4)` handed to
`FindDeflateSubBlocks`.  `none` models a `TEST_AND_RETURN_FALSE` /
`return false` on this extent.

Modelled from the spec: the bit-cursor primitive (`BufferBitReader`,
not among the embedded sources) follows the cursor contract of spec
§4.1/§6 — `CacheBits(n)` fails when fewer than `n` bits remain.  The
reader here is constructed over exactly the 2 header bytes
(utils.cc:99) and all 16 bits are consumed by the header-field drops,
so the `CacheBits(32)` for a preset-dictionary id (utils.cc:133) has 0
bits left to draw from and fails; the FDICT branch therefore returns
failure.  The payload length `zlib.length - header_len - 4` is
computed in `uint64_t` and may wrap (modelled by `sub64`). -/
def processZlibExtent (data : List Nat) (z : ByteExtent) : Option ByteExtent :=
  -- byte 0 is CMF and byte 1 is FLG, as laid down by Read(&zlib_header, 2)
  if z.offset + 2 ≤ data.length then
    if readByte data z.offset % 16 ≠ 8 ∧ readByte data z.offset % 16 ≠ 15 then
      none                                             -- cm check, utils.cc:104
    else if readByte data z.offset / 16 > 7 then
      none                                             -- cinfo check, utils.cc:110
    else if (readByte data z.offset * 256 + readByte data (z.offset + 1)) % 31 ≠ 0 then
      none                                             -- checksum, utils.cc:118
    else if readByte data (z.offset + 1) / 32 % 2 = 1 then
      none                                             -- FDICT: CacheBits(32) fails
    else some ⟨z.offset + 2, sub64 z.length 6⟩         -- utils.cc:138, header_len = 2
  else none

/-- `FindDeflateSubBlocks` (utils.cc:144-169).  `codec` is the external
deflate codec oracle: for the bytes read from the stream it returns the
sub-block bit extents (relative to the payload start) together with the
number of input bits consumed, or `none` on malformed input.  The
result pairs the C++ return value with the final state of the
`subblock_deflates` out-vector (whose state at entry is `acc`).

Modelled from the spec: the final-consumption check
(`deflate.length == bit_reader.Offset()`, utils.cc:162) is expressed
per spec §4.4 — the consumed-bit count must equal
`extent.length * 8`. -/
def FindDeflateSubBlocks (data : List Nat)
    (codec : List Nat → Option (List BitExtent × Nat)) :
    List ByteExtent → List BitExtent → Bool × List BitExtent
  | [], acc => (true, acc)
  | d :: ds, acc =>
    if d.offset + d.length ≤ data.length then          -- Seek + Read succeed
      match codec ((data.drop d.offset).take d.length) with
      | none => (false, acc)                           -- PuffDeflate failed
      | some (subs, consumedBits) =>
        if consumedBits = 8 * d.length then
          FindDeflateSubBlocks data codec ds
            (acc ++ subs.map fun s => ⟨s.offset + d.offset * 8, s.length⟩)
        else (false, acc)                              -- utils.cc:162
    else (false, acc)

/-- `LocateDeflatesInZlibBlocks` (utils.cc:92-142).  Processes the zlib
extents in order; each validated extent's payload is handed to
`FindDeflateSubBlocks`, which appends into the shared out-vector.  The
result pairs the C++ return value with the final state of the
`deflates` out-vector (state at entry: `acc`). -/
def LocateDeflatesInZlibBlocks (data : List Nat)
    (codec : List Nat → Option (List BitExtent × Nat)) :
    List ByteExtent → List BitExtent → Bool × List BitExtent
  | [], acc => (true, acc)
  | z :: zs, acc =>
    match processZlibExtent data z with
    | none => (false, acc)
    | some d =>
      match FindDeflateSubBlocks data codec [d] acc with
      | (true, acc2) => LocateDeflatesInZlibBlocks data codec zs acc2
      | (false, acc2) => (false, acc2)

/-- The scan loop of `LocateDeflatesInZipArchive` (utils.cc:183-252)
starting at position `pos`.  `probe` is the decompression-probe oracle
(`CalculateSizeOfDeflateBlock`): given a start offset it reports
`(compressed size, uncompressed size)` or failure.  A `none` result of
the scan models an out-of-bounds buffer read (undefined behaviour in
the C++).  Note the loop condition `pos <= data.size() - 30` is
computed in `size_t` arithmetic, which wraps around when the buffer is
shorter than 30 bytes — hence `sub64`. -/
def zipScanFrom (data : List Nat) (probe : Nat → Option (Nat × Nat))
    (pos : Nat) : Option (List ByteExtent) :=
  if h1 : sub64 data.length 30 < pos then some []
  else if h2 : data.length < pos + 4 then none         -- OOB signature read
  else if h3 : readLE32 data pos ≠ 0x04034b50 then
    zipScanFrom data probe (pos + 1)                   -- utils.cc:188
  else if h4 : data.length < pos + 10 then none        -- OOB method read
  else if h5 : readLE16 data (pos + 8) ≠ 8 then
    zipScanFrom data probe (pos + 4)                   -- utils.cc:207
  else if h6 : data.length < pos + 30 then none        -- OOB header-field read
  else if h7 : 30 + readLE16 data (pos + 26) + readLE16 data (pos + 28)
        + readLE32 data (pos + 18) > data.length
      ∨ pos > data.length
        - (30 + readLE16 data (pos + 26) + readLE16 data (pos + 28))
        - readLE32 data (pos + 18) then
    zipScanFrom data probe (pos + 4)                   -- utils.cc:220
  else
    match probe (pos + (30 + readLE16 data (pos + 26) + readLE16 data (pos + 28))) with
    | none => zipScanFrom data probe (pos + 4)         -- utils.cc:231
    | some (ccs, _) =>
      match zipScanFrom data probe
          (pos + (30 + readLE16 data (pos + 26) + readLE16 data (pos + 28)) + ccs) with
      | none => none
      | some rest =>
        some (⟨pos + (30 + readLE16 data (pos + 26) + readLE16 data (pos + 28)), ccs⟩ :: rest)
termination_by data.length + 31 - pos
decreasing_by
  all_goals simp_wf
  all_goals omega

/-- `LocateDeflatesInZipArchive` (utils.cc:181-255): the scan starts at
position 0.  `some extents` is the (always-`true`) successful return
with the emitted extents; `none` models an out-of-bounds read. -/
def LocateDeflatesInZipArchive (data : List Nat)
    (probe : Nat → Option (Nat × Nat)) : Option (List ByteExtent) :=
  zipScanFrom data probe 0

/-- The gap flag computed at utils.cc:305-314: 1 iff there is a
previous deflate, the previous deflate ends exactly at this deflate's
bit offset, and this deflate does not start on a byte boundary. -/
def gapFlag : Option BitExtent → BitExtent → Nat
  | none, _ => 0
  | some prev, d =>
    if prev.offset + prev.length = d.offset ∧ d.offset % 8 ≠ 0 then 1 else 0

/-- The sequence of gap flags `FindPuffLocations` computes for an
ordered deflate list, threading the previous extent. -/
def gapFlagsFrom (prev : Option BitExtent) : List BitExtent → List Nat
  | [] => []
  | d :: ds => gapFlag prev d :: gapFlagsFrom (some d) ds

/-- Gap flags of a whole deflate list (first extent has no
predecessor). -/
def gapFlags (ds : List BitExtent) : List Nat :=
  gapFlagsFrom none ds

/-- `ssize_t deflate_length_in_bytes = end_byte - start_byte`
(utils.cc:316-318): whole bytes spanned, with
`start_byte = (offset + 7) / 8` and `end_byte = (offset + length) / 8`,
as a signed quantity. -/
def deflateLenBytes (d : BitExtent) : Int :=
  (((d.offset + d.length) / 8 : Nat) : Int) - (((d.offset + 7) / 8 : Nat) : Int)

/-- The loop of `FindPuffLocations` (utils.cc:280-328).  `srcSize` is
the stream size; `prev` the previously processed deflate; `acc` the
running `total_size_difference`; `puffs` the out-vector so far.  The
puff-size oracle `ps` supplies, per extent, the external codec's
re-encoded size `puff_writer.Size()` (`none` = the codec failed or did
not consume the whole buffer, utils.cc:296-298).  Returns the final
out-vector and accumulator, or `none` on failure. -/
def findPuffLoop (srcSize : Nat) :
    Option BitExtent → Int → List ByteExtent → List BitExtent →
      List (Option Nat) → Option (List ByteExtent × Int)
  | _, acc, puffs, [], _ => some (puffs, acc)
  | _, _, _, _ :: _, [] => none
  | prev, acc, puffs, d :: ds, p? :: ps =>
    -- Seek(start_byte) and Read of end_byte - start_byte bytes succeed
    -- iff end_byte = (offset + length + 7) / 8 lies within the stream.
    if (d.offset + d.length + 7) / 8 ≤ srcSize then
      match p? with
      | none => none
      | some p =>
        findPuffLoop srcSize (some d)
          (acc + (p : Int) - deflateLenBytes d - (gapFlag prev d : Int))
          (puffs ++
            [⟨(((((d.offset + 7) / 8 : Nat) : Int) - (gapFlag prev d : Int) + acc)
                  % (2 ^ 64 : Int)).toNat,
              p⟩])
          ds ps
    else none

/-- `FindPuffLocations` (utils.cc:268-336): run the loop, then the
final size is `src_size + total_size_difference`, a hard failure when
negative (utils.cc:332-333). -/
def FindPuffLocations (srcSize : Nat) (deflates : List BitExtent)
    (ps : List (Option Nat)) : Option (List ByteExtent × Nat) :=
  match findPuffLoop srcSize none 0 [] deflates ps with
  | none => none
  | some (puffs, acc) =>
    if 0 ≤ (srcSize : Int) + acc then some (puffs, ((srcSize : Int) + acc).toNat)
    else none

/-- The total size delta `FindPuffLocations` accumulates: per extent,
`(re-encoded puff length) - (whole deflate bytes spanned) - gap`. -/
def deltaSum : Option BitExtent → List BitExtent → List (Option Nat) → Int
  | _, [], _ => 0
  | _, _ :: _, [] => 0
  | prev, d :: ds, p? :: ps =>
    ((p?.getD 0 : Nat) : Int) - deflateLenBytes d - (gapFlag prev d : Int) +
      deltaSum (some d) ds ps

/-! ## Helper lemmas -/

/-- Position `i` of the gap-flag sequence is the gap flag of extent `i`
with its predecessor (the threaded `prev` for `i = 0`). -/
theorem gapFlagsFrom_getD (ds : List BitExtent) :
    ∀ (prev : Option BitExtent) (i : Nat), i < ds.length →
      (gapFlagsFrom prev ds).getD i 2 =
        gapFlag (if i = 0 then prev else some (ds.getD (i - 1) ⟨0, 0⟩))
          (ds.getD i ⟨0, 0⟩) := by
  induction ds with
  | nil =>
    intro prev i h
    simp at h
  | cons d ds ih =>
    intro prev i h
    cases i with
    | zero => simp [gapFlagsFrom]
    | succ j =>
      simp only [gapFlagsFrom, List.getD_cons_succ]
      rw [ih (some d) j (by simpa using h)]
      cases j with
      | zero => simp
      | succ k => simp

/-- On success, the loop's final accumulator is the entry accumulator
plus the per-extent deltas. -/
theorem findPuffLoop_acc (ds : List BitExtent) :
    ∀ (ps : List (Option Nat)) (srcSize : Nat) (prev : Option BitExtent)
      (a0 : Int) (puffs : List ByteExtent) (out : List ByteExtent × Int),
      findPuffLoop srcSize prev a0 puffs ds ps = some out →
      out.2 = a0 + deltaSum prev ds ps := by
  induction ds with
  | nil =>
    intro ps srcSize prev a0 puffs out h
    simp only [findPuffLoop, Option.some.injEq] at h
    rw [← h]
    simp [deltaSum]
  | cons d ds ih =>
    intro ps srcSize prev a0 puffs out h
    cases ps with
    | nil => simp [findPuffLoop] at h
    | cons p? ps =>
      simp only [findPuffLoop] at h
      split at h
      · cases p? with
        | none => simp at h
        | some p =>
          have hrec := ih ps srcSize (some d) _ _ out h
          rw [hrec]
          simp only [deltaSum, Option.getD_some]
          ring
      · simp at h

/-- An extent whose header bytes violate any RFC 1950 check is
rejected by the per-extent body. -/
theorem processZlibExtent_invalid (data : List Nat) (z : ByteExtent)
    (h : ¬ ZlibHeaderOk (readByte data z.offset) (readByte data (z.offset + 1))) :
    processZlibExtent data z = none := by
  unfold processZlibExtent
  split_ifs with hr h1 h2 h3 h4 <;> try rfl
  exact absurd ⟨by tauto, by omega, by omega⟩ h

/-- A validated extent makes `LocateDeflatesInZlibBlocks` continue (or
abort) exactly as `FindDeflateSubBlocks` on its payload dictates. -/
theorem locateZlib_cons_some (data : List Nat)
    (codec : List Nat → Option (List BitExtent × Nat)) (z : ByteExtent)
    (zs : List ByteExtent) (acc acc2 : List BitExtent) (d : ByteExtent)
    (hpz : processZlibExtent data z = some d) :
    (FindDeflateSubBlocks data codec [d] acc = (true, acc2) →
      LocateDeflatesInZlibBlocks data codec (z :: zs) acc
        = LocateDeflatesInZlibBlocks data codec zs acc2)
    ∧ (FindDeflateSubBlocks data codec [d] acc = (false, acc2) →
      LocateDeflatesInZlibBlocks data codec (z :: zs) acc = (false, acc2)) := by
  constructor <;> intro hfs <;> rw [LocateDeflatesInZlibBlocks, hpz] <;>
    · show (match FindDeflateSubBlocks data codec [d] acc with
          | (true, acc2) => LocateDeflatesInZlibBlocks data codec zs acc2
          | (false, acc2) => (false, acc2)) = _
      rw [hfs]

/-! ## Claim theorems -/

/-- Claim C3 counterexample: the spec's gap-law example asserts the pair
`{offset 100, length 20}`, `{offset 120, length 16}` gets gap flags
`[0, 1]`; the code computes `[0, 0]`, because `120` is a multiple of 8
(the second extent starts on a byte boundary, utils.cc:311). -/
theorem gap_law_example_refuted :
    gapFlags [⟨100, 20⟩, ⟨120, 16⟩] ≠ [0, 1] := by decide

/-- Claim C3 (amended): both example pairs are bit-contiguous but start
on a byte boundary (`120 = 15 * 8`), so neither is marked as a gap; a
contiguous pair whose second extent starts mid-byte, such as
`{100, 19}`, `{119, 17}`, does get gap flag 1.  The last conjunct runs
`FindPuffLocations` end-to-end on the first pair: both puff offsets are
gap-free. -/
theorem gap_flag_concrete_examples :
    gapFlags [⟨100, 20⟩, ⟨120, 16⟩] = [0, 0]
    ∧ gapFlags [⟨96, 24⟩, ⟨120, 16⟩] = [0, 0]
    ∧ gapFlags [⟨100, 19⟩, ⟨119, 17⟩] = [0, 1]
    ∧ FindPuffLocations 17 [⟨100, 20⟩, ⟨120, 16⟩] [some 2, some 2]
        = some ([⟨13, 2⟩, ⟨15, 2⟩], 17) := by decide

/-- Claim C2: in `FindPuffLocations`, the gap flag of extent `i` is 1
exactly when `i` is not the first extent, the previous extent's bit
range ends at this extent's offset, and this extent's offset is not a
multiple of 8; the first extent's flag is always 0 (utils.cc:305-314). -/
theorem findPuffLocations_gap_flag_law (ds : List BitExtent) (i : Nat)
    (hi : i < ds.length) :
    (gapFlags ds).getD i 2 =
      if 0 < i
          ∧ (ds.getD (i - 1) ⟨0, 0⟩).offset + (ds.getD (i - 1) ⟨0, 0⟩).length
              = (ds.getD i ⟨0, 0⟩).offset
          ∧ (ds.getD i ⟨0, 0⟩).offset % 8 ≠ 0
      then 1 else 0 := by
  rw [gapFlags, gapFlagsFrom_getD ds none i hi]
  cases i with
  | zero => simp [gapFlag]
  | succ j =>
    simp only [Nat.succ_ne_zero, if_neg, gapFlag]
    have : (0 < j + 1) = True := by simp
    simp [this]

/-- Claim C2 witness: for the pair `{100, 19}`, `{119, 17}` the second
extent is contiguous and starts mid-byte, so its flag is 1. -/
theorem findPuffLocations_gap_flag_law_witness :
    (gapFlags [⟨100, 19⟩, ⟨119, 17⟩]).getD 1 2 = 1 :=
  (findPuffLocations_gap_flag_law [⟨100, 19⟩, ⟨119, 17⟩] 1 (by decide)).trans
    (by decide)

/-- Claim C1: whenever `FindPuffLocations` succeeds, the returned total
puff size is the source size plus the accumulated
`(puff size) - (whole deflate bytes spanned) - gap` deltas
(utils.cc:326-334); and when the source size plus that accumulated
delta is negative, the call fails instead of returning a size
(utils.cc:333). -/
theorem findPuffLocations_size_law (srcSize : Nat) (ds : List BitExtent)
    (ps : List (Option Nat)) :
    (∀ puffs total, FindPuffLocations srcSize ds ps = some (puffs, total) →
      (total : Int) = (srcSize : Int) + deltaSum none ds ps)
    ∧ ((srcSize : Int) + deltaSum none ds ps < 0 →
      FindPuffLocations srcSize ds ps = none) := by
  constructor
  · intro puffs total h
    unfold FindPuffLocations at h
    cases hl : findPuffLoop srcSize none 0 [] ds ps with
    | none => rw [hl] at h; simp at h
    | some out =>
      obtain ⟨puffs0, acc⟩ := out
      have hacc : acc = deltaSum none ds ps := by
        simpa using findPuffLoop_acc ds ps srcSize none 0 [] (puffs0, acc) hl
      rw [hl] at h
      simp only [] at h
      by_cases hge : 0 ≤ (srcSize : Int) + acc
      · rw [if_pos hge] at h
        simp only [Option.some.injEq, Prod.mk.injEq] at h
        rw [← h.2, ← hacc, Int.toNat_of_nonneg hge]
      · rw [if_neg hge] at h
        simp at h
  · intro hneg
    unfold FindPuffLocations
    cases hl : findPuffLoop srcSize none 0 [] ds ps with
    | none => rfl
    | some out =>
      obtain ⟨puffs0, acc⟩ := out
      have hacc : acc = deltaSum none ds ps := by
        simpa using findPuffLoop_acc ds ps srcSize none 0 [] (puffs0, acc) hl
      have hlt : ¬ (0 ≤ (srcSize : Int) + acc) := by rw [hacc]; omega
      show (if 0 ≤ (srcSize : Int) + acc
          then some (puffs0, ((srcSize : Int) + acc).toNat) else none) = none
      rw [if_neg hlt]

/-- Claim C1 witness: a successful call (total 17 = source 17 plus a
zero delta sum) and a failing call whose predicted size would be
negative (source 10, delta sum -20). -/
theorem findPuffLocations_size_law_witness :
    ((17 : Nat) : Int)
        = ((17 : Nat) : Int) + deltaSum none [⟨100, 20⟩, ⟨120, 16⟩] [some 2, some 2]
    ∧ FindPuffLocations 10 [⟨0, 80⟩, ⟨0, 80⟩] [some 0, some 0] = none :=
  ⟨(findPuffLocations_size_law 17 [⟨100, 20⟩, ⟨120, 16⟩] [some 2, some 2]).1
      [⟨13, 2⟩, ⟨15, 2⟩] 17 (by decide),
    (findPuffLocations_size_law 10 [⟨0, 80⟩, ⟨0, 80⟩] [some 0, some 0]).2 (by decide)⟩

/-- Claim C6: a 2-byte zlib header is accepted only if `CM ∈ {8, 15}`,
`CINFO ≤ 7` and `31 ∣ CMF * 256 + FLG` (utils.cc:101-121); violating
any check on any extent makes the whole call return failure; the header
`0x78 0x9C` is accepted (producing the payload extent), `CM = 5` is
rejected, and `CINFO = 8` is rejected. -/
theorem zlib_header_checks :
    (∀ (data : List Nat) (z e : ByteExtent),
      processZlibExtent data z = some e →
      ZlibHeaderOk (readByte data z.offset) (readByte data (z.offset + 1)))
    ∧ (∀ (data : List Nat) (codec : List Nat → Option (List BitExtent × Nat))
        (zlibs : List ByteExtent) (acc : List BitExtent),
      (∃ z ∈ zlibs,
        ¬ ZlibHeaderOk (readByte data z.offset) (readByte data (z.offset + 1))) →
      (LocateDeflatesInZlibBlocks data codec zlibs acc).1 = false)
    ∧ (∀ (data : List Nat) (z : ByteExtent),
      z.offset + 2 ≤ data.length →
      readByte data z.offset = 0x78 → readByte data (z.offset + 1) = 0x9C →
      processZlibExtent data z = some ⟨z.offset + 2, sub64 z.length 6⟩)
    ∧ (∀ (data : List Nat) (z : ByteExtent),
      readByte data z.offset % 16 = 5 → processZlibExtent data z = none)
    ∧ (∀ (data : List Nat) (z : ByteExtent),
      readByte data z.offset / 16 = 8 → processZlibExtent data z = none) := by
  refine ⟨?_, ?_, ?_, ?_, ?_⟩
  · intro data z e h
    unfold processZlibExtent at h
    split_ifs at h with hr h1 h2 h3 h4
    exact ⟨by tauto, by omega, by omega⟩
  · intro data codec zlibs
    induction zlibs with
    | nil =>
      intro acc h
      obtain ⟨z, hz, _⟩ := h
      simp at hz
    | cons z zs ih =>
      intro acc h
      obtain ⟨w, hw, hnot⟩ := h
      rcases List.mem_cons.mp hw with rfl | hw'
      · rw [LocateDeflatesInZlibBlocks, processZlibExtent_invalid data w hnot]
      · cases hpz : processZlibExtent data z with
        | none => rw [LocateDeflatesInZlibBlocks, hpz]
        | some d =>
          rw [LocateDeflatesInZlibBlocks, hpz]
          show (match FindDeflateSubBlocks data codec [d] acc with
              | (true, acc2) => LocateDeflatesInZlibBlocks data codec zs acc2
              | (false, acc2) => (false, acc2)).1 = false
          cases hfs : FindDeflateSubBlocks data codec [d] acc with
          | mk ok acc2 =>
            cases ok with
            | true => exact ih acc2 ⟨w, hw', hnot⟩
            | false => rfl
  · intro data z hread hb0 hb1
    unfold processZlibExtent
    rw [if_pos hread, hb0, hb1]
    norm_num
  · intro data z h5
    unfold processZlibExtent
    split_ifs with hr h1 h2 h3 h4 <;> first | rfl | omega
  · intro data z h8
    unfold processZlibExtent
    split_ifs with hr h1 h2 h3 h4 <;> first | rfl | omega

/-- Claim C6 witness: the acceptance and rejection checks evaluated on
concrete headers, and whole-call failure on an invalid header. -/
theorem zlib_header_checks_witness :
    processZlibExtent [0x78, 0x9C] ⟨0, 12⟩ = some ⟨0 + 2, sub64 12 6⟩
    ∧ processZlibExtent [0x85, 0x00] ⟨0, 6⟩ = none
    ∧ processZlibExtent [0x88, 0x00] ⟨0, 6⟩ = none
    ∧ (LocateDeflatesInZlibBlocks [0x85, 0x00] (fun _ => none) [⟨0, 6⟩] []).1
        = false :=
  ⟨zlib_header_checks.2.2.1 [0x78, 0x9C] ⟨0, 12⟩ (by decide) (by decide) (by decide),
    zlib_header_checks.2.2.2.1 [0x85, 0x00] ⟨0, 6⟩ (by decide),
    zlib_header_checks.2.2.2.2 [0x88, 0x00] ⟨0, 6⟩ (by decide),
    zlib_header_checks.2.1 [0x85, 0x00] (fun _ => none) [⟨0, 6⟩] []
      ⟨⟨0, 6⟩, by decide, by decide⟩⟩

/-- Claim C7: for any extent whose FLG byte has the FDICT bit set, the
per-extent body fails — the `BufferBitReader` holds only the 2 header
bytes, all 16 bits are already consumed, and `CacheBits(32)`
(utils.cc:133) cannot supply the 4-byte dictionary id — so the call
returns failure instead of skipping the id and handing the payload
`(offset + 6, length - 10)` onward. -/
theorem zlib_fdict_path_fails :
    (∀ (data : List Nat) (z : ByteExtent),
      readByte data (z.offset + 1) / 32 % 2 = 1 →
      processZlibExtent data z = none)
    ∧ (∀ (data : List Nat) (codec : List Nat → Option (List BitExtent × Nat))
        (z : ByteExtent) (zs : List ByteExtent) (acc : List BitExtent),
      readByte data (z.offset + 1) / 32 % 2 = 1 →
      LocateDeflatesInZlibBlocks data codec (z :: zs) acc = (false, acc)) := by
  have h1 : ∀ (data : List Nat) (z : ByteExtent),
      readByte data (z.offset + 1) / 32 % 2 = 1 →
      processZlibExtent data z = none := by
    intro data z hfd
    unfold processZlibExtent
    split_ifs with hr hcm hci hck hfdict <;> first | rfl | omega
  refine ⟨h1, ?_⟩
  intro data codec z zs acc hfd
  rw [LocateDeflatesInZlibBlocks, h1 data z hfd]

/-- Claim C7 witness: `0x78 0x20` is a checksum-valid header with FDICT
set; the extent is nevertheless rejected and the whole call fails. -/
theorem zlib_fdict_path_fails_witness :
    processZlibExtent [0x78, 0x20] ⟨0, 12⟩ = none
    ∧ LocateDeflatesInZlibBlocks [0x78, 0x20] (fun _ => none) [⟨0, 12⟩] []
        = (false, []) :=
  ⟨zlib_fdict_path_fails.1 [0x78, 0x20] ⟨0, 12⟩ (by decide),
    zlib_fdict_path_fails.2 [0x78, 0x20] (fun _ => none) ⟨0, 12⟩ [] [] (by decide)⟩

/-- Claim C8: for each deflate byte extent, every sub-block bit extent
the codec reports is emitted shifted by `extent.offset * 8` bits with
its length unchanged (utils.cc:163-166), and unless the codec's final
consumed count is exactly the declared `extent.length * 8` bits the
call fails with nothing appended for this extent (utils.cc:162). -/
theorem findDeflateSubBlocks_shift_and_consume (data : List Nat)
    (codec : List Nat → Option (List BitExtent × Nat)) (d : ByteExtent)
    (ds : List ByteExtent) (acc subs : List BitExtent) (cb : Nat)
    (hread : d.offset + d.length ≤ data.length)
    (hcodec : codec ((data.drop d.offset).take d.length) = some (subs, cb)) :
    (cb = 8 * d.length →
      FindDeflateSubBlocks data codec (d :: ds) acc =
        FindDeflateSubBlocks data codec ds
          (acc ++ subs.map fun s => ⟨s.offset + d.offset * 8, s.length⟩))
    ∧ (cb ≠ 8 * d.length →
      FindDeflateSubBlocks data codec (d :: ds) acc = (false, acc)) := by
  constructor
  · intro hc
    rw [FindDeflateSubBlocks, if_pos hread, hcodec]
    simp [hc]
  · intro hc
    rw [FindDeflateSubBlocks, if_pos hread, hcodec]
    simp [hc]

/-- Claim C8 witness: a 2-byte extent at offset 1 whose two codec
sub-blocks are emitted shifted by 8 bits. -/
theorem findDeflateSubBlocks_shift_and_consume_witness :
    FindDeflateSubBlocks [1, 2, 3]
        (fun buf => some ([⟨0, 4⟩, ⟨4, 8 * buf.length - 4⟩], 8 * buf.length))
        [⟨1, 2⟩] []
      = (true, [⟨8, 4⟩, ⟨12, 12⟩]) := by
  have h :=
    (findDeflateSubBlocks_shift_and_consume [1, 2, 3]
      (fun buf => some ([⟨0, 4⟩, ⟨4, 8 * buf.length - 4⟩], 8 * buf.length))
      ⟨1, 2⟩ [] [] [⟨0, 4⟩, ⟨4, 12⟩] 16 (by decide) rfl).1 rfl
  rw [h]
  decide

/-- Claim C9 counterexample: with a first zlib extent that parses
cleanly (appending one sub-block into the out-vector) and a second
extent with an invalid header (`CM = 5`), the call fails — but the
out-vector, empty at entry, is left holding the first extent's
sub-block rather than being unchanged. -/
theorem locateZlib_partial_results_remain :
    (LocateDeflatesInZlibBlocks
        [0x78, 0x9C, 1, 2, 3, 4, 0, 0, 0, 0, 0x05, 0x00, 0, 0, 0, 0]
        (fun buf => some ([⟨0, 8 * buf.length⟩], 8 * buf.length))
        [⟨0, 10⟩, ⟨10, 6⟩] []).1 = false
    ∧ (LocateDeflatesInZlibBlocks
        [0x78, 0x9C, 1, 2, 3, 4, 0, 0, 0, 0, 0x05, 0x00, 0, 0, 0, 0]
        (fun buf => some ([⟨0, 8 * buf.length⟩], 8 * buf.length))
        [⟨0, 10⟩, ⟨10, 6⟩] []).2 = [⟨16, 32⟩]
    ∧ ([⟨16, 32⟩] : List BitExtent) ≠ [] := by decide

/-- Claim C9 (amended): a failing extent aborts the call with a failure
flag and no later extent is processed, and the out-vector is exactly
its state at entry to the failing step — sub-blocks already appended
for earlier valid extents are retained, not rolled back. -/
theorem locateZlib_abort_on_failure (data : List Nat)
    (codec : List Nat → Option (List BitExtent × Nat)) (z : ByteExtent)
    (zs : List ByteExtent) (acc : List BitExtent)
    (h : processZlibExtent data z = none) :
    LocateDeflatesInZlibBlocks data codec (z :: zs) acc = (false, acc) := by
  rw [LocateDeflatesInZlibBlocks, h]

/-- Claim C9 witness: an invalid first header aborts immediately,
keeping the entry state of the out-vector. -/
theorem locateZlib_abort_on_failure_witness :
    LocateDeflatesInZlibBlocks [0x85, 0x00] (fun _ => none) [⟨0, 6⟩] [⟨99, 1⟩]
      = (false, [⟨99, 1⟩]) :=
  locateZlib_abort_on_failure [0x85, 0x00] (fun _ => none) ⟨0, 6⟩ [] [⟨99, 1⟩]
    (by decide)

/-- Claim C10 counterexample: for the FDICT half of the claim — a
validated header with FDICT set and `length < 10` — the code does not
hand `(offset + 6, (length - 10) mod 2^64)` to the sub-block locator:
the extent is rejected outright (see the FDICT failure). -/
theorem zlib_short_fdict_refuted :
    processZlibExtent [0x78, 0x20] ⟨0, 8⟩ ≠ some ⟨0 + 6, sub64 8 10⟩ := by decide

/-- Claim C10 (amended): for every extent whose header passes
validation with FDICT clear and whose length is below 6, the payload
length is computed by unsigned 64-bit wrap-around as
`(length - 6) mod 2^64` with no size check rejecting the extent, and
the resulting extent is handed to `FindDeflateSubBlocks`
(utils.cc:138-139); with FDICT set the call fails beforehand. -/
theorem zlib_short_extent_wraparound (data : List Nat) (z : ByteExtent)
    (hread : z.offset + 2 ≤ data.length)
    (hok : ZlibHeaderOk (readByte data z.offset) (readByte data (z.offset + 1)))
    (hfd : readByte data (z.offset + 1) / 32 % 2 = 0)
    (hshort : z.length < 6) :
    processZlibExtent data z
        = some ⟨z.offset + 2, (z.length + 2 ^ 64 - 6) % 2 ^ 64⟩
    ∧ ∀ (codec : List Nat → Option (List BitExtent × Nat))
        (zs : List ByteExtent) (acc acc2 : List BitExtent),
      (FindDeflateSubBlocks data codec
          [⟨z.offset + 2, (z.length + 2 ^ 64 - 6) % 2 ^ 64⟩] acc = (true, acc2) →
        LocateDeflatesInZlibBlocks data codec (z :: zs) acc
          = LocateDeflatesInZlibBlocks data codec zs acc2)
      ∧ (FindDeflateSubBlocks data codec
          [⟨z.offset + 2, (z.length + 2 ^ 64 - 6) % 2 ^ 64⟩] acc = (false, acc2) →
        LocateDeflatesInZlibBlocks data codec (z :: zs) acc = (false, acc2)) := by
  obtain ⟨hcm, hci, hck⟩ := hok
  have hc1 : ¬ (readByte data z.offset % 16 ≠ 8 ∧ readByte data z.offset % 16 ≠ 15) := by
    tauto
  have hc2 : ¬ (readByte data z.offset / 16 > 7) := by omega
  have hc3 : ¬ ((readByte data z.offset * 256 + readByte data (z.offset + 1)) % 31 ≠ 0) := by
    omega
  have hc4 : ¬ (readByte data (z.offset + 1) / 32 % 2 = 1) := by omega
  have h1 : processZlibExtent data z
      = some ⟨z.offset + 2, (z.length + 2 ^ 64 - 6) % 2 ^ 64⟩ := by
    unfold processZlibExtent
    rw [if_pos hread, if_neg hc1, if_neg hc2, if_neg hc3, if_neg hc4]
    rfl
  refine ⟨h1, ?_⟩
  intro codec zs acc acc2
  exact locateZlib_cons_some data codec z zs acc acc2 _ h1

/-- Claim C10 witness: a 2-byte extent (shorter than the 6 bytes of
mandatory framing) with a valid plain header is passed on with the
wrapped-around payload length `(2 - 6) mod 2^64`. -/
theorem zlib_short_extent_wraparound_witness :
    processZlibExtent [0x78, 0x9C] ⟨0, 2⟩
      = some ⟨0 + 2, (2 + 2 ^ 64 - 6) % 2 ^ 64⟩ :=
  (zlib_short_extent_wraparound [0x78, 0x9C] ⟨0, 2⟩ (by decide) (by decide)
    (by decide) (by decide)).1

/-- Claim C4: one scan step of the zip scanner at an in-bounds position
(utils.cc:184-252): signature mismatch advances by 1; a matched
signature with a non-deflate method, an out-of-bounds declared payload,
or a failed decompression probe advances by 4 without aborting; a
successful probe emits `(payload start, probed compressed size)` —
the probed size, never the declared one — and advances past the
consumed payload. -/
theorem zipScan_step (data : List Nat) (probe : Nat → Option (Nat × Nat))
    (pos : Nat) (hsize : data.length < 2 ^ 64) (hband : pos + 30 ≤ data.length) :
    (readLE32 data pos ≠ 0x04034b50 →
      zipScanFrom data probe pos = zipScanFrom data probe (pos + 1))
    ∧ (readLE32 data pos = 0x04034b50 → readLE16 data (pos + 8) ≠ 8 →
      zipScanFrom data probe pos = zipScanFrom data probe (pos + 4))
    ∧ (readLE32 data pos = 0x04034b50 → readLE16 data (pos + 8) = 8 →
      data.length
          < pos + (30 + readLE16 data (pos + 26) + readLE16 data (pos + 28))
            + readLE32 data (pos + 18) →
      zipScanFrom data probe pos = zipScanFrom data probe (pos + 4))
    ∧ (readLE32 data pos = 0x04034b50 → readLE16 data (pos + 8) = 8 →
      pos + (30 + readLE16 data (pos + 26) + readLE16 data (pos + 28))
          + readLE32 data (pos + 18) ≤ data.length →
      probe (pos + (30 + readLE16 data (pos + 26) + readLE16 data (pos + 28)))
          = none →
      zipScanFrom data probe pos = zipScanFrom data probe (pos + 4))
    ∧ (∀ ccs cus, readLE32 data pos = 0x04034b50 → readLE16 data (pos + 8) = 8 →
      pos + (30 + readLE16 data (pos + 26) + readLE16 data (pos + 28))
          + readLE32 data (pos + 18) ≤ data.length →
      probe (pos + (30 + readLE16 data (pos + 26) + readLE16 data (pos + 28)))
          = some (ccs, cus) →
      zipScanFrom data probe pos =
        match zipScanFrom data probe
            (pos + (30 + readLE16 data (pos + 26) + readLE16 data (pos + 28))
              + ccs) with
        | none => none
        | some rest =>
          some (⟨pos + (30 + readLE16 data (pos + 26) + readLE16 data (pos + 28)),
              ccs⟩ :: rest)) := by
  have hb1 : ¬ sub64 data.length 30 < pos := by
    unfold sub64
    omega
  have hb2 : ¬ (data.length < pos + 4) := by omega
  have hb4 : ¬ (data.length < pos + 10) := by omega
  have hb6 : ¬ (data.length < pos + 30) := by omega
  refine ⟨?_, ?_, ?_, ?_, ?_⟩
  · intro hsig
    rw [zipScanFrom, dif_neg hb1, dif_neg hb2, dif_pos hsig]
  · intro hsig hcm
    rw [zipScanFrom, dif_neg hb1, dif_neg hb2, dif_neg (fun hne => hne hsig),
      dif_neg hb4, dif_pos hcm]
  · intro hsig hcm hoob
    rw [zipScanFrom, dif_neg hb1, dif_neg hb2, dif_neg (fun hne => hne hsig),
      dif_neg hb4, dif_neg (fun hne => hne hcm), dif_neg hb6, dif_pos (by omega)]
  · intro hsig hcm hin hprobe
    rw [zipScanFrom, dif_neg hb1, dif_neg hb2, dif_neg (fun hne => hne hsig),
      dif_neg hb4, dif_neg (fun hne => hne hcm), dif_neg hb6, dif_neg (by omega),
      hprobe]
  · intro ccs cus hsig hcm hin hprobe
    rw [zipScanFrom, dif_neg hb1, dif_neg hb2, dif_neg (fun hne => hne hsig),
      dif_neg hb4, dif_neg (fun hne => hne hcm), dif_neg hb6, dif_neg (by omega),
      hprobe]

/-- Claim C4 witness: on a 30-byte all-zero buffer (no signature at
position 0) the scan step advances by exactly one byte. -/
theorem zipScan_step_witness :
    zipScanFrom (List.replicate 30 0) (fun _ => none) 0
      = zipScanFrom (List.replicate 30 0) (fun _ => none) 1 :=
  (zipScan_step (List.replicate 30 0) (fun _ => none) 0 (by decide)
    (by decide)).1 (by decide)

/-- Claim C5: `pos <= data.size() - 30` is `size_t` arithmetic; for a
buffer shorter than 30 bytes `data.size() - 30` wraps to about `2^64`,
the loop is entered anyway, and the 4-byte signature read (or, after an
accidental signature match, the header-field read) goes out of bounds —
modelled as the `none` result — instead of performing zero iterations
and returning an empty extent list. -/
theorem zipArchive_short_buffer_oob :
    LocateDeflatesInZipArchive [0x50, 0x4B, 0x03, 0x04] (fun _ => none) = none
    ∧ LocateDeflatesInZipArchive [] (fun _ => none) = none := by
  constructor
  · rw [LocateDeflatesInZipArchive, zipScanFrom, dif_neg (by decide),
      dif_neg (by decide), dif_neg (by decide), dif_pos (by decide)]
  · rw [LocateDeflatesInZipArchive, zipScanFrom, dif_neg (by decide),
      dif_pos (by decide)]

end Puffin
